import Mathlib

/-!
Shallow embedding of the logt console logger (package logt, file logt.go).

The engine is StdLogget.Printf: it renders one line consisting of a severity
tag, an optional timestamp segment, an optional caller segment, a space, and
the user message, and writes it to stdout.  Ambient effects are made explicit
parameters: the current wall-clock time (local and UTC variants) and the
result of runtime.Caller.  ANSI color wrapping around the severity tag is
elided (presentation only; the color library emits the same tag text).
-/

namespace Logt

/-- Flag constants from logt.go lines 19-28 (1 shifted by iota, as in the
Go log package, plus LCaller). -/
def Ldate : Nat := 1 <<< 0

/-- Time-of-day flag. -/
def Ltime : Nat := 1 <<< 1

/-- Microsecond-resolution flag. -/
def Lmicroseconds : Nat := 1 <<< 2

/-- Full file name flag. -/
def Llongfile : Nat := 1 <<< 3

/-- Final file name element flag. -/
def Lshortfile : Nat := 1 <<< 4

/-- UTC flag. -/
def LUTC : Nat := 1 <<< 5

/-- Caller annotation flag (not in the standard log package). -/
def LCaller : Nat := 1 <<< 6

/-- Initial flags for the standard logger: Ldate | Ltime. -/
def LstdFlags : Nat := Ldate ||| Ltime

/-- A Go interface value as passed to the variadic print functions: a plain
string, an integer, or a value implementing the error interface (carrying
the text its Error method returns). -/
inductive GoVal where
  | str : String → GoVal
  | int : Int → GoVal
  | err : String → GoVal
deriving DecidableEq, Repr

/-- The type assertion av.(error) of anyErr (logt.go line 185): only err
values implement the error interface. -/
def isErrorVal : GoVal → Bool
  | .err _ => true
  | _ => false

/-- Whether the dynamic type of the value is string (Go fmt.Sprint inserts
a space between two operands only when neither is a string). -/
def valIsString : GoVal → Bool
  | .str _ => true
  | _ => false

/-- Default (%v) stringification of a value: a string prints itself, an
integer prints in decimal, an error prints the text of its Error method. -/
def valString : GoVal → String
  | .str s => s
  | .int n => toString n
  | .err m => m

/-- Go dynamic type name of the value, as printed in the EXTRA annotation
of fmt.Sprintf. -/
def typeName : GoVal → String
  | .str _ => "string"
  | .int _ => "int"
  | .err _ => "*errors.errorString"

/-- anyErr (logt.go lines 183-191): linear scan over the arguments that
returns true as soon as one of them is an error value. -/
def anyErr : List GoVal → Bool
  | [] => false
  | v :: rest => if isErrorVal v then true else anyErr rest

/-- Go fmt.Sprint: operands are rendered in their default format and
concatenated; a single space is inserted between two adjacent operands
exactly when neither of them is a string. -/
def goSprint : List GoVal → String
  | [] => ""
  | [v] => valString v
  | v :: w :: rest =>
      valString v ++
        (if valIsString v = false ∧ valIsString w = false then " " else "") ++
        goSprint (w :: rest)

/-- One item of the EXTRA annotation fmt.Sprintf appends for arguments left
over after the format string is exhausted: type=value. -/
def extraItem (v : GoVal) : String := typeName v ++ "=" ++ valString v

/-- Go fmt.Sprintf over the fragment of the format language this code base
uses: a percent followed by v consumes one argument and renders it in its
default format, a doubled percent renders a literal percent, every other
character is literal.  Arguments left over when the format is exhausted are
reported in Go style as a parenthesised EXTRA list; a percent-v with no
argument left renders the Go MISSING marker. -/
def goSprintfAux : List Char → List GoVal → String
  | [], [] => ""
  | [], v :: vs =>
      "%!(EXTRA " ++ String.intercalate ", " ((v :: vs).map extraItem) ++ ")"
  | '%' :: 'v' :: rest, v :: vs => valString v ++ goSprintfAux rest vs
  | '%' :: 'v' :: rest, [] => "%!v(MISSING)" ++ goSprintfAux rest []
  | '%' :: '%' :: rest, vs => "%" ++ goSprintfAux rest vs
  | c :: rest, vs => String.singleton c ++ goSprintfAux rest vs

/-- Go fmt.Sprintf on a format string. -/
def goSprintf (format : String) (args : List GoVal) : String :=
  goSprintfAux format.data args

/-- The message part ln of StdLogget.Printf (logt.go lines 196-204): an
empty format string means no formatting (fmt.Sprint), otherwise the
arguments are substituted into the format (fmt.Sprintf). -/
def messageText (format : String) (args : List GoVal) : String :=
  if format = "" then goSprint args else goSprintf format args

/-- The severity tag written first into the pooled buffer
(logt.go lines 209-213); the ANSI color wrapping is elided. -/
def severityTag (args : List GoVal) : String :=
  if anyErr args then "[error]" else "[info ]"

/-- A civil date-time instant, the data time.Now() provides that the used
layouts can render. -/
structure DateTime where
  year : Nat
  month : Nat
  day : Nat
  hour : Nat
  minute : Nat
  sec : Nat
  micro : Nat
deriving DecidableEq, Repr

/-- Decimal rendering of n left-padded with zeros to width w. -/
def padNum (w : Nat) (n : Nat) : String :=
  let s := toString n
  if s.length < w then String.mk (List.replicate (w - s.length) '0') ++ s else s

/-- Go time.Format restricted to the reference-layout tokens this code base
composes: 2006 the year, 01 the month, 02 the day, 15 the hour, 04 the
minute, 05 the second, .000000 the zero-padded microseconds; every other
character is literal. -/
def goTimeFormat : List Char → DateTime → String
  | [], _ => ""
  | '2' :: '0' :: '0' :: '6' :: rest, dt => padNum 4 dt.year ++ goTimeFormat rest dt
  | '.' :: '0' :: '0' :: '0' :: '0' :: '0' :: '0' :: rest, dt =>
      "." ++ padNum 6 dt.micro ++ goTimeFormat rest dt
  | '0' :: '1' :: rest, dt => padNum 2 dt.month ++ goTimeFormat rest dt
  | '0' :: '2' :: rest, dt => padNum 2 dt.day ++ goTimeFormat rest dt
  | '1' :: '5' :: rest, dt => padNum 2 dt.hour ++ goTimeFormat rest dt
  | '0' :: '4' :: rest, dt => padNum 2 dt.minute ++ goTimeFormat rest dt
  | '0' :: '5' :: rest, dt => padNum 2 dt.sec ++ goTimeFormat rest dt
  | c :: rest, dt => String.singleton c ++ goTimeFormat rest dt

/-- Go strings.TrimSpace over the characters of a string: leading and
trailing whitespace removed. -/
def trimSpace (s : String) : String :=
  String.mk (((s.data.dropWhile Char.isWhitespace).reverse.dropWhile Char.isWhitespace).reverse)

/-- The layout string dtFormat composed by StdLogget.Printf
(logt.go lines 216-229), including the final strings.TrimSpace: the date
part when Ldate is set, then the whole-second time part when Ltime is set,
else the microsecond time part when Lmicroseconds is set. -/
def dtLayout (flag : Nat) : String :=
  let f0 := ""
  let f1 := if flag &&& Ldate ≠ 0 then f0 ++ "2006/01/02 " else f0
  let f2 :=
    if flag &&& Ltime ≠ 0 then f1 ++ "15:04:05"
    else if flag &&& Lmicroseconds ≠ 0 then f1 ++ "15:04:05.000000"
    else f1
  trimSpace f2

/-- The timestamp segment (logt.go lines 215-230): written only when one of
Ldate, Ltime, Lmicroseconds is set; the instant is the UTC variant when LUTC
is set; a single leading space is prepended. -/
def tsSegment (flag : Nat) (dt dtUTC : DateTime) : String :=
  if flag &&& (Ldate ||| Ltime ||| Lmicroseconds) ≠ 0 then
    " " ++ goTimeFormat (dtLayout flag).data (if flag &&& LUTC ≠ 0 then dtUTC else dt)
  else ""

/-- Index of the last occurrence of c in the list, Go strings.LastIndex
restricted to a one-character needle (none plays the role of the -1 Go
returns when the needle is absent). -/
def lastIdx : List Char → Char → Option Nat
  | [], _ => none
  | a :: rest, c =>
      match lastIdx rest c with
      | some i => some (i + 1)
      | none => if a = c then some 0 else none

/-- The function-name extraction inside here (logt.go lines 141-146): when
the last dot of the qualified name sits at a strictly positive index and is
not the final character, keep only what follows it; otherwise the name is
returned unchanged.  Indices are in characters (the dot is ASCII). -/
def extractFuncName (name : String) : String :=
  match lastIdx name.data '.' with
  | none => name
  | some ix =>
      if 0 < ix ∧ ix + 1 < name.data.length then String.mk (name.data.drop (ix + 1))
      else name

/-- A resolved caller frame as here returns it. -/
structure Frame where
  funcName : String
  fileName : String
  fileLine : Nat
deriving DecidableEq, Repr

/-- here (logt.go lines 128-150) as a function of the ambient runtime.Caller
answer: none models the not-ok case, in which here reports errNotAvailable
and the caller drops the segment; on success the function name is shortened
past its last dot.  The parent-directory/base-name shortening of the file
path (filepath.Split, Base, Join) is not modelled, the resolved file name is
passed through; no claim refers to the shortened path form.  The skip-depth
argument is immaterial in this model. -/
def here (res : Option (String × String × Nat)) : Option Frame :=
  match res with
  | none => none
  | some (nm, fn, ln) => some ⟨extractFuncName nm, fn, ln⟩

/-- The final file name element computed by the loop in StdLogget.Printf
(logt.go lines 238-244): everything after the last slash, provided that
slash sits at a strictly positive index; otherwise the name is unchanged. -/
def shortFile (s : String) : String :=
  match lastIdx s.data '/' with
  | some i => if 0 < i then String.mk (s.data.drop (i + 1)) else s
  | none => s

/-- The caller segment (logt.go lines 232-249): attempted only when one of
LCaller, Lshortfile, Llongfile is set; dropped silently when frame
resolution failed; LCaller renders file:line func() with the line
zero-padded to two digits, else Lshortfile renders the final file name
element; Llongfile alone selects no branch and renders nothing. -/
def callerSegment (flag : Nat) (caller : Option Frame) : String :=
  if flag &&& (LCaller ||| Lshortfile ||| Llongfile) ≠ 0 then
    match caller with
    | none => ""
    | some fr =>
        if flag &&& LCaller ≠ 0 then
          " " ++ fr.fileName ++ ":" ++ padNum 2 fr.fileLine ++ " " ++ fr.funcName ++ "()"
        else if flag &&& Lshortfile ≠ 0 then
          " " ++ shortFile fr.fileName
        else ""
  else ""

/-- The mutable state of the standard output sink StdLogget
(logt.go lines 153-156); the field pfx models the stored prefix string,
which Printf never reads. -/
structure StdLogget where
  pfx : String
  flag : Nat
deriving DecidableEq, Repr

/-- Flags accessor (logt.go line 162). -/
def StdLogget.getFlags (sl : StdLogget) : Nat := sl.flag

/-- Stored-prefix accessor, the source method named for the prefix
(logt.go line 163). -/
def StdLogget.getPfx (sl : StdLogget) : String := sl.pfx

/-- SetFlags (logt.go line 164). -/
def StdLogget.setFlags (sl : StdLogget) (flag : Nat) : StdLogget :=
  { sl with flag := flag }

/-- SetPrefix (logt.go line 165). -/
def StdLogget.setPfx (sl : StdLogget) (p : String) : StdLogget :=
  { sl with pfx := p }

/-- StdLogget.Printf (logt.go lines 193-250) as the string written to
stdout: the deferred final write is buffer, space, message, and the buffer
holds the severity tag, the timestamp segment and the caller segment in
order.  dt and dtUTC are the local and UTC views of time.Now(); res is the
ambient runtime.Caller answer fed to here. -/
def stdPrintf (sl : StdLogget) (dt dtUTC : DateTime)
    (res : Option (String × String × Nat))
    (format : String) (args : List GoVal) : String :=
  severityTag args ++ tsSegment sl.flag dt dtUTC ++
    callerSegment sl.flag (here res) ++ " " ++ messageText format args

/-- One call to the abstract Output.Printf, as issued by the Logger facade:
the format string and the argument list forwarded. -/
structure RenderCall where
  format : String
  args : List GoVal
deriving DecidableEq, Repr

/-- Logger.Print (logt.go lines 81-83): the list of render calls issued. -/
def Logger.Print (args : List GoVal) : List RenderCall :=
  [⟨"", args⟩]

/-- Logger.Printf (logt.go lines 84-86). -/
def Logger.Printf (format : String) (args : List GoVal) : List RenderCall :=
  [⟨format, args⟩]

/-- Logger.Println (logt.go lines 87-90): the newline marker is appended to
the argument list and the format stays empty. -/
def Logger.Println (args : List GoVal) : List RenderCall :=
  [⟨"", args ++ [GoVal.str "\n"]⟩]

/-- Logger.Panic (logt.go lines 67-70): the render calls issued before the
panic, paired with the value the panic carries, fmt.Sprint of the
arguments. -/
def Logger.Panic (args : List GoVal) : List RenderCall × String :=
  ([⟨"", args⟩], goSprint args)

/-- Logger.Panicf (logt.go lines 71-74): renders with the format, then
panics with fmt.Sprintf of the format and arguments. -/
def Logger.Panicf (format : String) (args : List GoVal) : List RenderCall × String :=
  ([⟨format, args⟩], goSprintf format args)

/-- Logger.Panicln (logt.go lines 75-79): the newline marker is appended
first, the appended list is both rendered and carried (fmt.Sprint) by the
panic. -/
def Logger.Panicln (args : List GoVal) : List RenderCall × String :=
  let v := args ++ [GoVal.str "\n"]
  ([⟨"", v⟩], goSprint v)

/-- Space-joined stringification of all arguments, one space between every
pair of adjacent arguments; this is the reading of the default message
rendering that the specification states, to be compared with goSprint. -/
def spaceJoined (args : List GoVal) : String :=
  String.intercalate " " (args.map valString)

/-- A fixed concrete instant used to instantiate theorems. -/
def dt0 : DateTime := ⟨2009, 1, 23, 1, 23, 23, 123123⟩

end Logt

namespace Logt

/-- The linear scan anyErr finds an error exactly when some argument is an
error value. -/
theorem anyErr_iff (vs : List GoVal) : anyErr vs = true ↔ ∃ v ∈ vs, isErrorVal v = true := by
  induction vs with
  | nil => simp [anyErr]
  | cons v rest ih =>
    cases h : isErrorVal v
    · simp [anyErr, h, ih]
    · simp [anyErr, h]

/-- lastIdx finds nothing when the needle is absent. -/
theorem lastIdx_eq_none (c : Char) (l : List Char) (h : c ∉ l) : lastIdx l c = none := by
  induction l with
  | nil => rfl
  | cons a rest ih =>
    simp only [List.mem_cons, not_or] at h
    simp only [lastIdx, ih h.2]
    rw [if_neg (fun hac => h.1 hac.symm)]

/-- lastIdx locates the last occurrence of the needle. -/
theorem lastIdx_append_cons (pre post : List Char) (c : Char) (h : c ∉ post) :
    lastIdx (pre ++ c :: post) c = some pre.length := by
  induction pre with
  | nil => simp [lastIdx, lastIdx_eq_none c post h]
  | cons a pre ih => simp [lastIdx, ih]

/-- Two strings followed by the same three tail strings are equal once the
whole concatenations are. -/
theorem append_head_eq (s t a b c d : String)
    (h : s ++ a ++ b ++ c ++ d = t ++ a ++ b ++ c ++ d) : s = t := by
  have h2 := congrArg String.data h
  simp only [String.data_append, List.append_assoc] at h2
  have h3 := List.append_cancel_right h2
  cases s; cases t; exact congrArg String.mk h3

end Logt

namespace Logt

/-- C1: the rendered line carries the error tag exactly when at least one
argument is an error value, and otherwise carries the info tag; the
argument scan short-circuits on the first error, the tail being
irrelevant once one is seen. -/
theorem printf_severity_tag_iff (sl : StdLogget) (dt dtUTC : DateTime)
    (res : Option (String × String × Nat)) (format : String) (args : List GoVal) :
    (stdPrintf sl dt dtUTC res format args =
        "[error]" ++ tsSegment sl.flag dt dtUTC ++ callerSegment sl.flag (here res) ++
          " " ++ messageText format args
      ↔ ∃ v ∈ args, isErrorVal v = true)
    ∧ ((¬ ∃ v ∈ args, isErrorVal v = true) →
        stdPrintf sl dt dtUTC res format args =
          "[info ]" ++ tsSegment sl.flag dt dtUTC ++ callerSegment sl.flag (here res) ++
            " " ++ messageText format args)
    ∧ (∀ (m : String) (vs : List GoVal), anyErr (GoVal.err m :: vs) = true) := by
  refine ⟨⟨?_, ?_⟩, ?_, ?_⟩
  · intro h
    by_contra hne
    have ha : anyErr args = false := by
      cases h' : anyErr args
      · rfl
      · exact absurd ((anyErr_iff args).1 h') hne
    have h2 : "[info ]" ++ tsSegment sl.flag dt dtUTC ++ callerSegment sl.flag (here res) ++
        " " ++ messageText format args =
        "[error]" ++ tsSegment sl.flag dt dtUTC ++ callerSegment sl.flag (here res) ++
          " " ++ messageText format args := by
      rw [← h]; simp [stdPrintf, severityTag, ha]
    have h3 := append_head_eq _ _ _ _ _ _ h2
    exact absurd h3 (by decide)
  · intro h
    have ha : anyErr args = true := (anyErr_iff args).2 h
    simp [stdPrintf, severityTag, ha]
  · intro h
    have ha : anyErr args = false := by
      cases h' : anyErr args
      · rfl
      · exact absurd ((anyErr_iff args).1 h') h
    simp [stdPrintf, severityTag, ha]
  · intro m vs
    simp [anyErr, isErrorVal]

/-- C1 witness: a concrete error-free call renders with the info tag. -/
theorem printf_severity_tag_iff_witness :
    stdPrintf ⟨"", 3⟩ dt0 dt0 none "" [GoVal.str "ok"] =
      "[info ]" ++ tsSegment 3 dt0 dt0 ++ callerSegment 3 (here none) ++
        " " ++ messageText "" [GoVal.str "ok"] :=
  (printf_severity_tag_iff ⟨"", 3⟩ dt0 dt0 none "" [GoVal.str "ok"]).2.1 (by decide)

/-- C2 counterexample: with an empty format, a string argument followed by a
non-string argument is rendered with no separating space, so the message is
not the space-separated stringification the claim states. -/
theorem sprint_not_space_separated :
    messageText "" [GoVal.str "count", GoVal.int 14] = "count14" ∧
    spaceJoined [GoVal.str "count", GoVal.int 14] = "count 14" ∧
    messageText "" [GoVal.str "count", GoVal.int 14] ≠
      spaceJoined [GoVal.str "count", GoVal.int 14] := by
  refine ⟨by decide, by decide, by decide⟩

/-- C2 amended: with an empty format the message segment is fmt.Sprint of
the arguments, where a space separates two adjacent arguments exactly when
neither is a string; with a non-empty format the message segment is the
arguments substituted into the format under the positional directive
rules. -/
theorem message_segment_rendering (format : String) (args : List GoVal) :
    (format = "" → messageText format args = goSprint args) ∧
    (format ≠ "" → messageText format args = goSprintf format args) ∧
    (∀ (v w : GoVal) (rest : List GoVal),
      goSprint (v :: w :: rest) =
        valString v ++
          (if valIsString v = false ∧ valIsString w = false then " " else "") ++
          goSprint (w :: rest)) := by
  refine ⟨fun h => by simp [messageText, h], fun h => by simp [messageText, h],
    fun v w rest => rfl⟩

/-- C2 witness: with an empty format and one argument, the message is the
default stringification. -/
theorem message_segment_rendering_witness :
    messageText "" [GoVal.str "a"] = goSprint [GoVal.str "a"] :=
  (message_segment_rendering "" [GoVal.str "a"]).1 rfl

/-- C3: with the time flag set the layout is the whole-second one whether or
not the microsecond flag is set; the microsecond layout appears exactly when
the microsecond flag is set and the time flag is not; the date component
precedes the time component. -/
theorem timestamp_layout_cases (flag : Nat) :
    (flag &&& Ltime ≠ 0 →
      dtLayout flag = if flag &&& Ldate ≠ 0 then "2006/01/02 15:04:05" else "15:04:05") ∧
    (flag &&& Ltime = 0 → flag &&& Lmicroseconds ≠ 0 →
      dtLayout flag =
        if flag &&& Ldate ≠ 0 then "2006/01/02 15:04:05.000000" else "15:04:05.000000") ∧
    (flag &&& Ltime = 0 → flag &&& Lmicroseconds = 0 →
      dtLayout flag = if flag &&& Ldate ≠ 0 then "2006/01/02" else "") := by
  refine ⟨fun ht => ?_, fun ht hm => ?_, fun ht hm => ?_⟩
  · by_cases hd : flag &&& Ldate ≠ 0 <;> simp [dtLayout, hd, ht] <;> decide
  · by_cases hd : flag &&& Ldate ≠ 0 <;> simp [dtLayout, hd, ht, hm] <;> decide
  · by_cases hd : flag &&& Ldate ≠ 0 <;> simp [dtLayout, hd, ht, hm] <;> decide

/-- C3 witness: with both the time and the microsecond flag set the layout
is the whole-second one. -/
theorem timestamp_layout_cases_witness :
    dtLayout 6 = if 6 &&& Ldate ≠ 0 then "2006/01/02 15:04:05" else "15:04:05" :=
  (timestamp_layout_cases 6).1 (by decide)

/-- C4: the exported flag constants have the documented values and the
standard combination is date plus time. -/
theorem flag_constant_values :
    Ldate = 1 ∧ Ltime = 2 ∧ Lmicroseconds = 4 ∧ Llongfile = 8 ∧ Lshortfile = 16 ∧
    LUTC = 32 ∧ LCaller = 64 ∧ LstdFlags = (Ldate ||| Ltime) ∧ LstdFlags = 3 := by
  decide

end Logt

namespace Logt

/-- C5 counterexample: the qualified name consisting of a dot followed by
foo has its last dot at index zero with characters following it, yet the
extraction returns it unchanged instead of what follows the dot, because
the code requires a strictly positive dot index. -/
theorem func_name_leading_dot_counterexample :
    lastIdx (".foo" : String).data '.' = some 0 ∧
    (".foo" : String).data.drop 1 = ("foo" : String).data ∧
    extractFuncName ".foo" = ".foo" ∧
    extractFuncName ".foo" ≠ "foo" := by
  refine ⟨by decide, by decide, by decide, by decide⟩

/-- C5 amended: the extraction returns the substring after the last dot;
the identifier is returned unchanged when it contains no dot, when nothing
follows the last dot, or when the last dot is the first character. -/
theorem func_name_extraction :
    (∀ t : String, '.' ∉ t.data → extractFuncName t = t) ∧
    (∀ pre post : List Char, '.' ∉ post →
      extractFuncName (String.mk (pre ++ '.' :: post)) =
        if pre = [] ∨ post = [] then String.mk (pre ++ '.' :: post)
        else String.mk post) := by
  constructor
  · intro t h
    simp only [extractFuncName, lastIdx_eq_none '.' t.data h]
  · intro pre post h
    have hl : lastIdx (String.mk (pre ++ '.' :: post)).data '.' = some pre.length :=
      lastIdx_append_cons pre post '.' h
    have hdrop : (pre ++ '.' :: post).drop (pre.length + 1) = post := by
      have he : pre ++ '.' :: post = (pre ++ ['.']) ++ post := by simp
      have hlen : (pre ++ ['.']).length = pre.length + 1 := by simp
      rw [he, ← hlen, List.drop_left]
    by_cases hp : pre = []
    · subst hp
      have hl0 : lastIdx ('.' :: post) '.' = some 0 := by simpa using hl
      simp [extractFuncName, hl0]
    · by_cases hq : post = []
      · subst hq
        simp [extractFuncName, hl, List.length_pos, hp]
      · have hppos : 0 < pre.length := List.length_pos.2 hp
        have hqpos : 0 < post.length := List.length_pos.2 hq
        have hlt : pre.length + 1 < (pre ++ '.' :: post).length := by
          simp only [List.length_append, List.length_cons]
          omega
        simp [extractFuncName, hl, hppos, hlt, hdrop, hp, hq]

/-- C5 witness: a one-character package part and a one-character name part
are split at the dot. -/
theorem func_name_extraction_witness :
    extractFuncName (String.mk (['a'] ++ '.' :: ['b'])) =
      if (['a'] : List Char) = [] ∨ (['b'] : List Char) = []
      then String.mk (['a'] ++ '.' :: ['b'])
      else String.mk ['b'] :=
  func_name_extraction.2 ['a'] ['b'] (by decide)

/-- C6: when caller-frame resolution fails, here reports failure, the caller
segment is empty, and the line is still rendered with its severity tag,
timestamp and message; the rendering function is total, so no error reaches
the caller. -/
theorem caller_failure_omits_segment (sl : StdLogget) (dt dtUTC : DateTime)
    (format : String) (args : List GoVal)
    (h : sl.flag &&& (LCaller ||| Lshortfile ||| Llongfile) ≠ 0) :
    here none = none ∧
    callerSegment sl.flag (here none) = "" ∧
    stdPrintf sl dt dtUTC none format args =
      severityTag args ++ tsSegment sl.flag dt dtUTC ++ " " ++ messageText format args := by
  refine ⟨rfl, ?_, ?_⟩
  · simp [callerSegment, here]
  · simp [stdPrintf, callerSegment, here]

/-- C6 witness: with only LCaller set and resolution failing, the line is
tag, timestamp and message. -/
theorem caller_failure_omits_segment_witness :
    here none = none ∧
    callerSegment 64 (here none) = "" ∧
    stdPrintf ⟨"", 64⟩ dt0 dt0 none "" [GoVal.str "x"] =
      severityTag [GoVal.str "x"] ++ tsSegment 64 dt0 dt0 ++ " " ++
        messageText "" [GoVal.str "x"] :=
  caller_failure_omits_segment ⟨"", 64⟩ dt0 dt0 "" [GoVal.str "x"] (by decide)

/-- C7: with the long-file flag set but neither the caller flag nor the
short-file flag, the caller segment is empty for every resolution outcome
and the rendered line consists of tag, timestamp and message only. -/
theorem longfile_alone_no_segment (sl : StdLogget) (dt dtUTC : DateTime)
    (res : Option (String × String × Nat)) (fr : Option Frame)
    (format : String) (args : List GoVal)
    (h1 : sl.flag &&& Llongfile ≠ 0) (h2 : sl.flag &&& LCaller = 0)
    (h3 : sl.flag &&& Lshortfile = 0) :
    callerSegment sl.flag fr = "" ∧
    stdPrintf sl dt dtUTC res format args =
      severityTag args ++ tsSegment sl.flag dt dtUTC ++ " " ++ messageText format args := by
  have hseg : ∀ g : Option Frame, callerSegment sl.flag g = "" := by
    intro g
    cases g with
    | none => simp [callerSegment]
    | some f => simp [callerSegment, h2, h3]
  exact ⟨hseg fr, by simp [stdPrintf, hseg]⟩

/-- C7 witness: flags holding only Llongfile render no caller segment even
for a successfully resolved frame. -/
theorem longfile_alone_no_segment_witness :
    callerSegment 8 (some ⟨"main", "a/b.go", 7⟩) = "" ∧
    stdPrintf ⟨"", 8⟩ dt0 dt0 (some ("main.main", "a/b.go", 7)) "" [GoVal.str "x"] =
      severityTag [GoVal.str "x"] ++ tsSegment 8 dt0 dt0 ++ " " ++
        messageText "" [GoVal.str "x"] :=
  longfile_alone_no_segment ⟨"", 8⟩ dt0 dt0 (some ("main.main", "a/b.go", 7))
    (some ⟨"main", "a/b.go", 7⟩) "" [GoVal.str "x"] (by decide) (by decide) (by decide)

/-- C8: Print, Printf and Println each issue exactly one render call; Print
and Printf forward format and arguments unchanged, Println keeps the empty
format and appends the newline marker as an extra argument. -/
theorem facade_single_render_call (format : String) (args : List GoVal) :
    Logger.Print args = [⟨"", args⟩] ∧
    Logger.Printf format args = [⟨format, args⟩] ∧
    Logger.Println args = [⟨"", args ++ [GoVal.str "\n"]⟩] ∧
    (Logger.Print args).length = 1 ∧
    (Logger.Printf format args).length = 1 ∧
    (Logger.Println args).length = 1 :=
  ⟨rfl, rfl, rfl, rfl, rfl, rfl⟩

/-- C9 counterexample: Panicf invoked with the empty format string emits a
message segment rendered without formatting, but panics with the value the
positional formatter produces for an empty format, which annotates every
argument as EXTRA; the carried value differs from the rendered message
text. -/
theorem panicf_empty_format_counterexample :
    (Logger.Panicf "" [GoVal.int 5]).2 = "%!(EXTRA int=5)" ∧
    messageText "" [GoVal.int 5] = "5" ∧
    (Logger.Panicf "" [GoVal.int 5]).2 ≠ messageText "" [GoVal.int 5] := by
  refine ⟨by decide, by decide, by decide⟩

/-- C9 amended: Panic and Panicln each issue one render call and then panic
carrying exactly the message text of that call; Panicf does so as well for
every non-empty format, while with the empty format its panic value is the
positional rendering of the arguments against the empty format rather than
the space-joined message segment. -/
theorem panic_carries_message (format : String) (args : List GoVal) :
    (Logger.Panic args).1 = [⟨"", args⟩] ∧
    (Logger.Panic args).2 = messageText "" args ∧
    (Logger.Panicf format args).1 = [⟨format, args⟩] ∧
    (format ≠ "" → (Logger.Panicf format args).2 = messageText format args) ∧
    (Logger.Panicln args).1 = [⟨"", args ++ [GoVal.str "\n"]⟩] ∧
    (Logger.Panicln args).2 = messageText "" (args ++ [GoVal.str "\n"]) := by
  refine ⟨rfl, ?_, rfl, fun h => ?_, rfl, ?_⟩
  · simp [Logger.Panic, messageText]
  · simp [Logger.Panicf, messageText, h]
  · simp [Logger.Panicln, messageText]

/-- C9 witness: with a concrete non-empty format the panic value is the
message text. -/
theorem panic_carries_message_witness :
    (Logger.Panicf "%v" [GoVal.int 5]).2 = messageText "%v" [GoVal.int 5] :=
  (panic_carries_message "%v" [GoVal.int 5]).2.2.2.1 (by decide)

/-- C10: the rendering of StdLogget.Printf is identical for any two stored
prefix strings, and setting the stored prefix changes only what the
accessor returns, never a subsequently rendered line. -/
theorem render_independent_of_stored_pfx (p1 p2 q : String) (flag : Nat)
    (dt dtUTC : DateTime) (res : Option (String × String × Nat))
    (format : String) (args : List GoVal) (sl : StdLogget) :
    stdPrintf ⟨p1, flag⟩ dt dtUTC res format args =
      stdPrintf ⟨p2, flag⟩ dt dtUTC res format args ∧
    (sl.setPfx q).getPfx = q ∧
    (sl.setPfx q).flag = sl.flag ∧
    stdPrintf (sl.setPfx q) dt dtUTC res format args =
      stdPrintf sl dt dtUTC res format args :=
  ⟨rfl, rfl, rfl, rfl⟩

end Logt
